import Mathlib

/-!
Verification of the incremental sync + asynchronous summarization pipeline of
the intelligent-email-assistant repository.

The Python source is shallowly embedded: pure functions become Lean functions,
stateful database operations become explicit functions on table values, and
code that can raise becomes `Except`/`Option`-valued.  String manipulation is
modelled on `List Char` (the `data` field of `String`) with structurally
recursive helpers mirroring the Python string operations used by the source,
so that every definition is executable in the kernel.
-/

namespace EmailAssistant

/-! ## Python-style string helpers

These mirror the exact Python primitives used by the source files
(`str.split('\n')`, `'\n'.join`, `len(s.strip()) == 0`, slicing `s[:n]`,
`sub in s`, `str.lower`).  They operate on `List Char` so that all
recursion is structural.
-/

/-- `s.split('\n')` on character lists: `"" → [""]`, `"a\nb" → ["a","b"]`,
a trailing newline yields a trailing empty line, exactly as in Python. -/
def splitNl : List Char → List (List Char)
  | [] => [[]]
  | c :: rest =>
    let r := splitNl rest
    if c = '\n' then [] :: r
    else
      match r with
      | h :: t => (c :: h) :: t
      | [] => [[c]]

/-- `'\n'.join(lines)` on character lists. -/
def joinNl : List (List Char) → List Char
  | [] => []
  | [x] => x
  | x :: xs => x ++ '\n' :: joinNl xs

/-- `len(s.strip()) == 0` : the string is empty or all whitespace. -/
def strippedEmpty (l : List Char) : Bool :=
  l.all Char.isWhitespace

/-- Python `s.strip()` (both-ends whitespace strip). -/
def pyStrip (l : List Char) : List Char :=
  ((l.dropWhile Char.isWhitespace).reverse.dropWhile Char.isWhitespace).reverse

/-- `needle` occurs at the start of `hay`. -/
def startsWith : List Char → List Char → Bool
  | [], _ => true
  | _ :: _, [] => false
  | a :: as, b :: bs => a = b && startsWith as bs

/-- Python `needle in hay` (substring test; the empty needle is contained
in every string). -/
def containsChars (needle : List Char) : List Char → Bool
  | [] => needle.isEmpty
  | c :: rest => startsWith needle (c :: rest) || containsChars needle rest

/-- Python slice `l[:n]` for lists. -/
def pySliceFirst (n : Nat) (l : List α) : List α := l.take n

/-- Python slice `l[-n:]` for lists.  Note the Python quirk: `l[-0:]` is the
WHOLE list (because `-0 == 0`), while for `n > 0` it is the last `n`
elements (the whole list when `n ≥ len(l)`). -/
def pySliceLast (n : Nat) (l : List α) : List α :=
  if n = 0 then l else l.drop (l.length - n)

/-! ## `backend/services/token_counter.py` -/

/-- `TokenEstimationMode`: the three estimation profiles. -/
inductive TokenMode
  | english       -- 1 token ≈ 4 chars
  | multilingual  -- 1 token ≈ 3.5 chars
  | cjkArabic     -- 1 token ≈ 2.5 chars
deriving DecidableEq, Repr

namespace TokenLimits

def MAX_INPUT_TOKENS : Nat := 4000
def MAX_OUTPUT_TOKENS : Nat := 300
def MAX_TOTAL_TOKENS : Nat := 4300
def PROMPT_OVERHEAD_TOKENS : Nat := 150
def SAFE_INPUT_TOKENS : Nat := MAX_INPUT_TOKENS - PROMPT_OVERHEAD_TOKENS  -- 3850

end TokenLimits

/-- `int(char_count / self.chars_per_token)`.  The Python computation uses
float division with divisors 4.0, 3.5 and 2.5 and truncates with `int`;
since the divisors are exactly representable dyadic-rational multiples of
small integers, `int(n / 4.0) = n / 4`, `int(n / 3.5) = 2n / 7` and
`int(n / 2.5) = 2n / 5` hold exactly for every realistic length `n`, so
the embedding uses the corresponding Nat divisions. -/
def divideByCharsPerToken (mode : TokenMode) (n : Nat) : Nat :=
  match mode with
  | .english => n / 4
  | .multilingual => 2 * n / 7
  | .cjkArabic => 2 * n / 5

/-- `int(target_tokens * self.chars_per_token)` (same float-exactness note). -/
def targetCharsFor (mode : TokenMode) (t : Nat) : Nat :=
  match mode with
  | .english => 4 * t
  | .multilingual => 7 * t / 2
  | .cjkArabic => 5 * t / 2

/-- `TokenCounter.estimate_tokens`: 0 for empty/whitespace-only text, else
the character count divided by the mode's chars-per-token divisor. -/
def estimateTokens (mode : TokenMode) (text : List Char) : Nat :=
  if text.isEmpty || strippedEmpty text then 0
  else divideByCharsPerToken mode text.length

/-- `TokenCounter.check_limits`: `(is_within_limits, estimated_tokens)`
(the human-readable message is dropped). -/
def checkLimits (mode : TokenMode) (text : List Char) : Bool × Nat :=
  let estimated := estimateTokens mode text
  (decide (estimated ≤ TokenLimits.MAX_INPUT_TOKENS), estimated)

/-- `TokenCounter.should_bypass_summarization` (default threshold 50). -/
def shouldBypassSummarization (mode : TokenMode) (text : List Char)
    (thresholdTokens : Nat := 50) : Bool :=
  estimateTokens mode text < thresholdTokens

/-- The marker inserted by the line-keeping phase of `smart_truncate`. -/
def SMART_MARKER : List Char := "...[content truncated for length]...".data

/-- The marker appended by the hard-truncation fallback of `smart_truncate`. -/
def HARD_MARKER : List Char := "...[truncated]".data

/-- Statistics dictionary returned by `smart_truncate`.  The Python
`reduction_pct` is a float rounded to one decimal; no claim depends on its
value, so only the token counts are carried. -/
structure TruncStats where
  truncated : Bool
  originalTokens : Nat
  finalTokens : Nat
deriving DecidableEq, Repr

/-- `TokenCounter.smart_truncate`: if the text is within `targetTokens` it is
returned unchanged; otherwise keep the first `int(total*0.20)` lines and the
Python slice `lines[-int(total*0.40):]` around a marker, and if that is
still over the target hard-truncate to `int(target*chars_per_token)`
characters plus a marker.  (`int(n*0.2) = n/5` and `int(n*0.4) = 2n/5`
exactly, because the float products of `n` with 0.2 resp. 0.4 lie strictly
between the true rational and the next integer.) -/
def smartTruncate (mode : TokenMode) (text : List Char) (targetTokens : Nat) :
    List Char × TruncStats :=
  let currentTokens := estimateTokens mode text
  if currentTokens ≤ targetTokens then
    (text, ⟨false, currentTokens, currentTokens⟩)
  else
    let targetChars := targetCharsFor mode targetTokens
    let lines := splitNl text
    let totalLines := lines.length
    let firstKeepLines := totalLines / 5
    let lastKeepLines := 2 * totalLines / 5
    let keptLines :=
      pySliceFirst firstKeepLines lines ++ [SMART_MARKER] ++ pySliceLast lastKeepLines lines
    let truncatedText := joinNl keptLines
    let truncatedTokens := estimateTokens mode truncatedText
    if truncatedTokens > targetTokens then
      let hardText := text.take targetChars ++ HARD_MARKER
      (hardText, ⟨true, currentTokens, estimateTokens mode hardText⟩)
    else
      (truncatedText, ⟨true, currentTokens, truncatedTokens⟩)

/-- The output "contains an explicit truncation marker": one of the two
marker strings of `smart_truncate` occurs as a substring. -/
def hasTruncationMarker (s : List Char) : Prop :=
  (∃ pre post, s = pre ++ SMART_MARKER ++ post) ∨
  (∃ pre post, s = pre ++ HARD_MARKER ++ post)

/-! ## `backend/services/email_preprocessor.py` -/

/-- A value stored in a Python stats dict.  `reduction_pct` is a float rounded
to one decimal in the source; it is carried as an integer number of tenths of
a percent (floor), an abstraction of the float rounding that no settled claim
depends on. -/
inductive StatVal
  | nat (n : Nat)
  | bool (b : Bool)
  | pct (z : Int)
deriving DecidableEq, Repr

/-- A Python dict with string keys, as an association list in insertion
order. -/
def Stats := List (String × StatVal)

instance : DecidableEq Stats := by
  unfold Stats
  infer_instance

/-- `stats.get(k)` / key lookup. -/
def statsLookup (stats : Stats) (k : String) : Option StatVal :=
  (stats.find? (fun p => p.1 = k)).map (·.2)

/-- `stats[k]`, raising `KeyError(k)` when the key is absent. -/
def statsIndex (stats : Stats) (k : String) : Except String StatVal :=
  match statsLookup stats k with
  | some v => Except.ok v
  | none => Except.error k

/-- `round(((original - final) / original) * 100, 1)` carried as tenths of a
percent (see `StatVal`). -/
def reductionPctVal (original final : Nat) : Int :=
  if original = 0 then 0 else ((original : Int) - (final : Int)) * 1000 / (original : Int)

/-- The cleaning steps of `EmailPreprocessor`.  The bodies of
`_strip_html_tags` (BeautifulSoup), `_remove_signature`, `_remove_reply_chain`
and `_normalize_whitespace` are regex/HTML-parser code, abstracted here as
environment functions; the settled claims depend only on the pipeline around
them.  The `Bool` components are the `signature_was_removed` /
`reply_chain_was_removed` flags those helpers return. -/
structure CleanSteps where
  stripHtmlTags : List Char → List Char
  removeReplyChain : List Char → List Char × Bool
  removeSignature : List Char → List Char × Bool
  normalizeWhitespace : List Char → List Char

/-- Constructor flags of `EmailPreprocessor.__init__`. -/
structure PreprocessorCfg where
  stripHtml : Bool
  removeSignatures : Bool
  removeReplyChains : Bool
  normalizeWhitespace : Bool

/-- `'<html' in text.lower() or '<div' in text.lower() or '<p>' in text.lower()`. -/
def htmlDetected (text : List Char) : Bool :=
  let lower := text.map Char.toLower
  containsChars "<html".data lower || containsChars "<div".data lower ||
    containsChars "<p>".data lower

/-- `EmailPreprocessor.preprocess`.  For an empty or whitespace-only body it
returns `("", {original_chars: 0, final_chars: 0, reduction_pct: 0})` — note
that this early-return stats dict has NO `html_stripped`,
`signature_removed` or `reply_chain_removed` keys.  Otherwise it runs the
four configurable steps in order and assembles the full six-key stats dict.
The `subject` argument is accepted and unused, as in the source. -/
def preprocess (steps : CleanSteps) (cfg : PreprocessorCfg)
    (emailBody _subject : List Char) : List Char × Stats :=
  if emailBody.isEmpty || strippedEmpty emailBody then
    ([], [("original_chars", .nat 0), ("final_chars", .nat 0), ("reduction_pct", .pct 0)])
  else
    let originalLength := emailBody.length
    let text := emailBody
    let step1 : List Char × Bool :=
      if cfg.stripHtml && htmlDetected text then (steps.stripHtmlTags text, true)
      else (text, false)
    let step2 : List Char × Bool :=
      if cfg.removeReplyChains then steps.removeReplyChain step1.1 else (step1.1, false)
    let step3 : List Char × Bool :=
      if cfg.removeSignatures then steps.removeSignature step2.1 else (step2.1, false)
    let step4 : List Char :=
      if cfg.normalizeWhitespace then steps.normalizeWhitespace step3.1 else step3.1
    let finalText := pyStrip step4
    let finalLength := finalText.length
    (finalText,
      [("original_chars", .nat originalLength),
       ("html_stripped", .bool step1.2),
       ("signature_removed", .bool step3.2),
       ("reply_chain_removed", .bool step2.2),
       ("final_chars", .nat finalLength),
       ("reduction_pct", .pct (reductionPctVal originalLength finalLength))])

/-! ## `backend/infrastructure/ai_summarizer_worker.py` — preprocessing and
Mistral invocation -/

def JOB_TYPE : String := "email_summarize_v1"
def PROMPT_VERSION : String := "summ_v1_optimized"
/-- `int(os.getenv("AI_MAX_ATTEMPTS", "5"))` at its default. -/
def AI_MAX_ATTEMPTS : Nat := 5
/-- `RATE_LIMIT_RETRY_DELAYS = [10, 30, 60]` (seconds). -/
def RATE_LIMIT_RETRY_DELAYS : List Nat := [10, 30, 60]

/-- External ingredients of the worker pipeline: the preprocessor's abstract
cleaning steps, the `STRIP_REPLY_CHAINS` environment flag, the three regex
substitutions of `_mask_pii` (abstracted), and
`hashlib.sha256(...).hexdigest()` (abstracted — the claims use the hash only
through equality). -/
structure WorkerEnv where
  steps : CleanSteps
  stripReplyChains : Bool
  maskPii : List Char → List Char
  sha256Hex : List Char → List Char

/-- The `EmailPreprocessor(strip_html=True, remove_signatures=True,
remove_reply_chains=<env flag>, normalize_whitespace=True)` configuration
used by `AISummarizerWorker.__init__`. -/
def workerCfg (env : WorkerEnv) : PreprocessorCfg :=
  ⟨true, true, env.stripReplyChains, true⟩

/-- `AISummarizerWorker._preprocess_and_prepare`.  Returns the prepared text
and the worker-level stats dict; a missing key in the preprocessor stats
dict surfaces as `Except.error <key>` (Python `KeyError`).  The token
counter runs in its default `ENGLISH` mode. -/
def preprocessAndPrepare (env : WorkerEnv) (text subject : List Char) :
    Except String (List Char × Stats) :=
  if text.isEmpty then
    Except.ok ([], [("token_count_estimated", .nat 0), ("within_limits", .bool true)])
  else do
    let pre := preprocess env.steps (workerCfg env) text subject
    let preprocessedText := pre.1
    let prepStats := pre.2
    let red ← statsIndex prepStats "reduction_pct"
    let hs ← statsIndex prepStats "html_stripped"
    let sr ← statsIndex prepStats "signature_removed"
    let tokenCount := estimateTokens .english preprocessedText
    let within := (checkLimits .english preprocessedText).1
    let afterTrunc : List Char × Bool × Nat :=
      if within = false then
        let t := smartTruncate .english preprocessedText TokenLimits.SAFE_INPUT_TOKENS
        (t.1, true, t.2.finalTokens)
      else (preprocessedText, false, tokenCount)
    let preparedText := env.maskPii afterTrunc.1
    Except.ok (preparedText,
      [("preprocessing_reduction_pct", red),
       ("html_stripped", hs),
       ("signature_removed", sr),
       ("token_count_estimated", .nat afterTrunc.2.2),
       ("within_limits", .bool within),
       ("truncated", .bool afterTrunc.2.1)])

/-- A raw `generate_json` response: each required key is `none` when absent;
`actionItems = some none` models a present key whose value is not a list;
`extraKeys` are the names of any other keys present in the response dict
(they matter: the missing-keys `ValueError` message embeds
`summary_json.keys()`, which the retry classifier then scans). -/
structure RawSummary where
  overview : Option (List Char)
  actionItems : Option (Option (List (List Char)))
  urgency : Option (List Char)
  extraKeys : List String

/-- The key list of the response dict, as rendered into the
`ValueError(f"Missing required keys. Got: {summary_json.keys()}")` message
(order is the dict's insertion order, irrelevant to the scan below). -/
def responseKeys (j : RawSummary) : List String :=
  (if j.overview.isSome then ["overview"] else []) ++
  (if j.actionItems.isSome then ["action_items"] else []) ++
  (if j.urgency.isSome then ["urgency"] else []) ++ j.extraKeys

/-- Whether the missing-keys `ValueError` is classified as a rate-limit by
`"429" in err_msg or "rate" in err_msg.lower()`.  The fixed scaffold
`Missing required keys. Got: dict_keys([...])` contains neither token, and
the `', '` separators and quotes are non-alphanumeric so neither token can
straddle two keys; hence the check reduces to a per-key substring scan:
some response key contains `429`, or contains `rate` once lowercased. -/
def missingKeysMsgRateLike (j : RawSummary) : Bool :=
  (responseKeys j).any (fun k =>
    containsChars "429".data k.data ||
      containsChars "rate".data (k.data.map Char.toLower))

/-- A validated summary object (`overview`, `action_items`, `urgency`). -/
structure SummaryJson where
  overview : List Char
  actionItems : List (List Char)
  urgency : List Char
deriving DecidableEq, Repr

/-- The validation/coercion block of `_call_mistral`: all three keys required
(`ValueError` otherwise, i.e. `none`), out-of-range urgency coerced to
`"medium"`, non-list `action_items` coerced to `[]`, overview truncated to
200 chars and at most five 80-char action items kept. -/
def validateSummary (j : RawSummary) : Option SummaryJson :=
  match j.overview, j.actionItems, j.urgency with
  | some o, some ai, some u =>
    let u' := if u = "low".data || u = "medium".data || u = "high".data then u
      else "medium".data
    let items := match ai with | some l => l | none => []
    some ⟨o.take 200, (items.take 5).map (fun it => it.take 80), u'⟩
  | _, _, _ => none

/-- Outcome of one `mistral.generate_json` attempt: a parsed JSON object, a
raised error whose message contains "429"/"rate" (e.g. an HTTP 429), or a
raised error whose message contains neither. -/
inductive MOutcome
  | ok (j : RawSummary)
  | rateLimit
  | fatal

/-- Whether an attempt's outcome lands in the `is_rate_limit` branch of the
`except` handler: a rate-limit exception, or the self-raised missing-keys
`ValueError` whose message (via `summary_json.keys()`) happens to contain
"429"/"rate". -/
def attemptRetryClass (o : MOutcome) : Bool :=
  match o with
  | .rateLimit => true
  | .ok j => (validateSummary j).isNone && missingKeysMsgRateLike j
  | .fatal => false

/-- Whether an attempt's outcome is an error the handler fails immediately
(no retry): any non-rate-limit exception, or a missing-keys `ValueError`
whose message does not contain "429"/"rate". -/
def attemptFailsNoRetry (o : MOutcome) : Bool :=
  match o with
  | .rateLimit => false
  | .ok j => (validateSummary j).isNone && !missingKeysMsgRateLike j
  | .fatal => true

/-- Result of `_call_mistral`: value (`None` on failure), number of
`generate_json` invocations made, and the backoff sleeps performed in
order. -/
structure MistralResult where
  value : Option SummaryJson
  calls : Nat
  sleeps : List Nat
deriving DecidableEq, Repr

/-- The retry loop of `_call_mistral`
(`for retry_attempt in range(len(RATE_LIMIT_RETRY_DELAYS) + 1)`), with the
attempt index `i` and the remaining loop iterations `fuel`.  Any caught
exception classified as a rate-limit — including the missing-keys
`ValueError` when its message contains "429"/"rate" — sleeps the ladder
delay and retries while `retry_attempt < len(RATE_LIMIT_RETRY_DELAYS)`;
everything else returns immediately.  The `fuel = 0` case mirrors the
unreachable trailing `return None`. -/
def mistralLoop (f : Nat → MOutcome) : Nat → Nat → MistralResult
  | i, 0 => ⟨none, i, []⟩
  | i, fuel + 1 =>
    match f i with
    | .ok j =>
      match validateSummary j with
      | some s => ⟨some s, i + 1, []⟩
      | none =>
        if missingKeysMsgRateLike j = true ∧ i < RATE_LIMIT_RETRY_DELAYS.length then
          let r := mistralLoop f (i + 1) fuel
          ⟨r.value, r.calls, RATE_LIMIT_RETRY_DELAYS.getD i 0 :: r.sleeps⟩
        else ⟨none, i + 1, []⟩
    | .rateLimit =>
      if i < RATE_LIMIT_RETRY_DELAYS.length then
        let r := mistralLoop f (i + 1) fuel
        ⟨r.value, r.calls, RATE_LIMIT_RETRY_DELAYS.getD i 0 :: r.sleeps⟩
      else ⟨none, i + 1, []⟩
    | .fatal => ⟨none, i + 1, []⟩

/-- `AISummarizerWorker._call_mistral` (the semaphore is acquired once around
the whole loop; semaphore accounting is recorded by `processJob`). -/
def callMistral (f : Nat → MOutcome) : MistralResult :=
  mistralLoop f 0 (RATE_LIMIT_RETRY_DELAYS.length + 1)

/-! ## The `ai_jobs` table: `SupabaseStore.enqueue_ai_job`, the claim RPC and
the worker's status updates

Timestamps are modelled as `Nat` minutes, so `timedelta(minutes=m)` is
`+ m`. -/

inductive JobStatus
  | queued
  | running
  | succeeded
  | failed
  | dead
deriving DecidableEq, Repr

structure AIJob where
  id : Nat
  jobType : String
  accountId : String
  gmailMessageId : String
  status : JobStatus
  attempts : Nat
  runAfter : Nat
  createdAt : Nat
  updatedAt : Nat
  lockedBy : Option String
  lockedAt : Option Nat
  lastErrorCode : Option String
  lastErrorAt : Option Nat
deriving DecidableEq, Repr

/-- The unique key `(job_type, account_id, gmail_message_id)`. -/
def sameTriple (j : AIJob) (jt a m : String) : Bool :=
  j.jobType = jt && j.accountId = a && j.gmailMessageId = m

/-- `SupabaseStore.enqueue_ai_job`: a PostgREST upsert with
`on_conflict="job_type,account_id,gmail_message_id"`.  On conflict the
database updates every supplied payload column — `status`, `attempts`,
`run_after`, `created_at`, `updated_at` — on the existing row
(unconditionally: there is no in-flight guard), and leaves the columns not
in the payload (locks, error fields) unchanged; otherwise it inserts a fresh
row.  `freshId` models the database-assigned primary key of an insert. -/
def enqueueStamp (now : Nat) (j : AIJob) : AIJob :=
  { j with status := .queued, attempts := 0, runAfter := now,
           createdAt := now, updatedAt := now }

/-- See `enqueueStamp`: the table-level upsert of `enqueue_ai_job`. -/
def enqueueAiJob (table : List AIJob) (jt accountId gmailMessageId : String)
    (now freshId : Nat) : List AIJob :=
  if table.any (fun j => sameTriple j jt accountId gmailMessageId) then
    table.map (fun j =>
      if sameTriple j jt accountId gmailMessageId then enqueueStamp now j else j)
  else
    table ++ [⟨freshId, jt, accountId, gmailMessageId, .queued, 0, now, now, now,
               none, none, none, none⟩]

/-- The per-row stamp a successful claim applies. -/
def claimStamp (workerId : String) (now : Nat) (j : AIJob) : AIJob :=
  { j with status := .running, lockedBy := some workerId, lockedAt := some now,
           updatedAt := now }

/-- Modelled from the spec: the body of the `ai_claim_jobs` stored procedure
is not in the source tree (the worker only invokes it through
`store.client.rpc("ai_claim_jobs", ...)`).  Per spec §4.2, `claim`
atomically selects up to `limit` jobs of the given type with
`status = queued AND run_after <= now`, transitions them to `running`,
stamps `locked_by`/`locked_at`, and returns them.  Returns
`(claimed rows, updated table)`. -/
def aiClaimJobs (table : List AIJob) (jt : String) (lim : Nat)
    (workerId : String) (now : Nat) : List AIJob × List AIJob :=
  let eligible := fun (j : AIJob) =>
    j.jobType = jt && j.status = JobStatus.queued && j.runAfter ≤ now
  let chosen := (table.filter eligible).take lim
  let chosenIds : List Nat := chosen.map (fun j => j.id)
  (chosen.map (claimStamp workerId now),
   table.map (fun j => if j.id ∈ chosenIds then claimStamp workerId now j else j))

/-- `AISummarizerWorker._mark_job_succeeded`: update by job id, setting
`status = succeeded` (no guard on the previous status). -/
def markJobSucceeded (table : List AIJob) (jobId now : Nat) : List AIJob :=
  table.map (fun j => if j.id = jobId then
    { j with status := .succeeded, updatedAt := now } else j)

/-- The row update `_mark_job_failed` applies, given the `attempts` value
taken from the claimed job row (the source passes it as a parameter rather
than re-reading the table).  `new_attempts ≥ AI_MAX_ATTEMPTS` dead-letters;
otherwise the job is requeued with the lock fields cleared and
`run_after = now + 2^new_attempts` minutes. -/
def failRow (attempts : Nat) (errorCode : String) (now : Nat) (j : AIJob) : AIJob :=
  let newAttempts := attempts + 1
  if AI_MAX_ATTEMPTS ≤ newAttempts then
    { j with status := .dead, attempts := newAttempts,
             lastErrorCode := some errorCode, lastErrorAt := some now,
             updatedAt := now }
  else
    let backoffMinutes := 2 ^ newAttempts
    { j with status := .queued, attempts := newAttempts,
             lastErrorCode := some errorCode, lastErrorAt := some now,
             runAfter := now + backoffMinutes, lockedAt := none, lockedBy := none,
             updatedAt := now }

/-- `AISummarizerWorker._mark_job_failed`: update by job id. -/
def markJobFailed (table : List AIJob) (jobId attempts : Nat)
    (errorCode : String) (now : Nat) : List AIJob :=
  table.map (fun j => if j.id = jobId then failRow attempts errorCode now j else j)

/-! ## `AISummarizerWorker.process_job` -/

/-- The columns `_fetch_email_row` selects from the `emails` table. -/
structure EmailRow where
  subject : List Char
  sender : List Char
  date : List Char
  body : List Char

/-- A row of `email_ai_summaries`. -/
structure SummaryRecord where
  accountId : String
  gmailMessageId : String
  promptVersion : String
  model : String
  inputHash : List Char
  summaryJson : SummaryJson

/-- `AISummarizerWorker._check_cache`: true iff a summary row exists for
`(account_id, gmail_message_id, PROMPT_VERSION)` whose `input_hash` equals
the given hash (the first matching row is compared, as in the source). -/
def checkCache (summaries : List SummaryRecord) (accountId gmailMessageId : String)
    (inputHash : List Char) : Bool :=
  match summaries.find? (fun r =>
      r.accountId = accountId && r.gmailMessageId = gmailMessageId &&
        r.promptVersion = PROMPT_VERSION) with
  | some r => r.inputHash = inputHash
  | none => false

/-- The input string hashed for the cache:
`f"Subject: {subject}\nFrom: {sender}\n\n{prepared_body}"`. -/
def hashedInputOf (subject sender preparedBody : List Char) : List Char :=
  "Subject: ".data ++ subject ++ "\nFrom: ".data ++ sender ++ "\n\n".data ++
    preparedBody

/-- Environment of one `process_job` run: the email row fetched for the job
(`none`: missing or fetch error), the current `email_ai_summaries` contents,
the behaviour of each Mistral attempt, and the worker-level abstractions. -/
structure ProcessEnv where
  emailRow : Option EmailRow
  summaries : List SummaryRecord
  mistral : Nat → MOutcome
  worker : WorkerEnv

/-- The job-status update a `process_job` run performs. -/
inductive JobUpdate
  | succeeded
  | failed (errorCode : String)
deriving DecidableEq, Repr

/-- Observable outcome of one `process_job` run: the job-status update, the
summary upserted (input hash and JSON), the number of model-provider calls
made, and how many times the rate-limit semaphore was acquired. -/
structure ProcessResult where
  jobUpdate : JobUpdate
  written : Option (List Char × SummaryJson)
  mistralCalls : Nat
  semaphoreAcquires : Nat

/-- The fields of the claimed job row that `process_job` uses. -/
structure ClaimedJob where
  id : Nat
  accountId : String
  gmailMessageId : String
  attempts : Nat

/-- `AISummarizerWorker.process_job`.  Store writes are modelled as
succeeding; any `KeyError` from `_preprocess_and_prepare` reaches the outer
handler, which fails the job with `WORKER_EXCEPTION`.  The bypass branch
synthesizes a minimal summary from the first 200 raw characters; the cache
branch marks the job succeeded with no Mistral call and no semaphore
acquisition; otherwise `_call_mistral` acquires the semaphore once. -/
def processJob (env : ProcessEnv) (job : ClaimedJob) : ProcessResult :=
  match env.emailRow with
  | none => ⟨.failed "EMAIL_NOT_FOUND", none, 0, 0⟩
  | some row =>
    match preprocessAndPrepare env.worker row.body row.subject with
    | .error _ => ⟨.failed "WORKER_EXCEPTION", none, 0, 0⟩
    | .ok prepared =>
      let preparedBody := prepared.1
      if shouldBypassSummarization .english preparedBody 50 then
        let overview := if row.body.isEmpty then "Empty email".data else row.body.take 200
        let minimal : SummaryJson := ⟨overview, [], "low".data⟩
        let ih := env.worker.sha256Hex preparedBody
        ⟨.succeeded, some (ih, minimal), 0, 0⟩
      else
        let ih := env.worker.sha256Hex (hashedInputOf row.subject row.sender preparedBody)
        if checkCache env.summaries job.accountId job.gmailMessageId ih then
          ⟨.succeeded, none, 0, 0⟩
        else
          let r := callMistral env.mistral
          match r.value with
          | none => ⟨.failed "MISTRAL_FAILED", none, r.calls, 1⟩
          | some s => ⟨.succeeded, some (ih, s), r.calls, 1⟩

/-! ## `backend/infrastructure/worker.py` — one iteration of `run_worker_loop`

One cycle of the sync loop, as a function of the stored cursor and an
environment recording what the collaborators (control plane, Gmail client,
`assistant.process_emails`) return this cycle.  The outer
`try/except` of the loop is part of the model: an ingestion exception
produces a normal result with a 120-second backoff and the cursor untouched.
Reads, logging and the `audit_log` insert of `control.log_audit` are outside
the modelled write set, which covers exactly message upserts, job enqueues
and cursor writes. -/

/-- One email dict as ingested by the cycle.  `messageId` is
`email.get('message_id') or email.get('id')`; `saveOk` records whether the
`store.save_email` upsert for this email succeeds (`false`: it raises, which
the loop's outer handler catches). -/
structure SyncEmail where
  messageId : Option String
  subject : String
  sender : String
  date : String
  body : String
  saveOk : Bool
deriving DecidableEq, Repr

/-- Result of `assistant.process_emails()`: either the
`{"__auth_error__": "invalid_grant"}` marker dict or a list of emails. -/
inductive FetchResult
  | authError
  | emails (es : List SyncEmail)
deriving DecidableEq, Repr

/-- One Gmail history record: the optional `messagesAdded` array, each entry
holding `msg_added.get('message', {}).get('id')`. -/
structure HistoryRecord where
  messagesAdded : Option (List (Option String))
deriving DecidableEq, Repr

/-- `_extract_message_ids_from_history`: collect the ids of `messagesAdded`
entries, deduplicated (the Python `set` iteration order is abstracted as
first-occurrence order; only the count and membership are used). -/
def extractMessageIds (records : List HistoryRecord) : List String :=
  (records.foldl (fun acc r =>
    match r.messagesAdded with
    | some l => acc ++ l.filterMap id
    | none => acc) []).eraseDups

/-- What the collaborators return during one cycle.  `cursorSaveOk` records
whether the end-of-cycle `set_sync_state` upsert succeeds: the source wraps
that call in its own `try/except` that only logs the failure
(`set_sync_state` itself re-raises on error), so a failed cursor write
leaves the stored cursor unchanged while the cycle still completes
normally. -/
structure CycleEnv where
  workerEnabled : Bool
  clientAvailable : Bool
  currentCursor : Option String
  history : Option (List HistoryRecord)
  deltaEmails : List SyncEmail
  fullSync : FetchResult
  maxEmailsPerCycle : Nat
  socketAvail : Bool
  cursorSaveOk : Bool
deriving DecidableEq, Repr

/-- A store write performed by the cycle. -/
inductive WriteOp
  | saveEmail (messageId : String)
  | enqueueJob (messageId : String)
  | setCursor (cursor : String)
deriving DecidableEq, Repr

/-- Observable outcome of one cycle: the stored cursor afterwards, the store
writes in order, whether the `emails_updated` event was emitted, and the
sleep the cycle ends with (60 s normal/NO-OP, 600 s auth quiet mode, 120 s
error backoff). -/
structure CycleResult where
  finalCursor : Option String
  writes : List WriteOp
  emitted : Bool
  sleepSeconds : Nat
deriving DecidableEq, Repr

/-- The ingestion loop over the (already batch-split) email list: skip
entries without a gmail id, upsert each email, enqueue an AI job for the
first 30 written, and abort on the first failing save (the raised exception
reaches the loop's outer handler).  Returns
`(writes, written_count, failed)`. -/
def ingest : List SyncEmail → Nat → List WriteOp × Nat × Bool
  | [], n => ([], n, false)
  | e :: rest, n =>
    match e.messageId with
    | none => ingest rest n
    | some mid =>
      if e.saveOk then
        let n' := n + 1
        let here := WriteOp.saveEmail mid ::
          (if n' ≤ 30 then [WriteOp.enqueueJob mid] else [])
        let r := ingest rest n'
        (here ++ r.1, r.2.1, r.2.2)
      else ([], n, true)

/-- The tail of the cycle after `emails` has been determined: the auth-error
quiet mode, the per-cycle quota, ingestion, the `written_count > 0`-guarded
Socket.IO emission, and the cursor save (attempted only when the Gmail
client exists and a current cursor was read — `cur` is `some` exactly
then; when the attempted `set_sync_state` raises, `cursorSaveOk = false`,
the exception is caught and logged and the cycle completes with the cursor
unchanged). -/
def finishFetch (env : CycleEnv) (stored : Option String) (cur : Option String)
    (fetched : FetchResult) : CycleResult :=
  match fetched with
  | .authError => ⟨stored, [], false, 600⟩
  | .emails es =>
    let es := if env.maxEmailsPerCycle < es.length then es.take env.maxEmailsPerCycle
      else es
    let r := ingest es 0
    if r.2.2 then ⟨stored, r.1, false, 120⟩
    else
      let emitted := decide (0 < r.2.1) && env.socketAvail
      match cur with
      | some c =>
        if env.cursorSaveOk then ⟨some c, r.1 ++ [WriteOp.setCursor c], emitted, 60⟩
        else ⟨stored, r.1, emitted, 60⟩
      | none => ⟨stored, r.1, emitted, 60⟩

/-- One iteration of `run_worker_loop`: the ControlPlane enable gate, the
cursor comparison (first run / NO-OP / delta / fallback), and the shared
tail.  A `NULL` current historyId raises and is caught by the inner
handler, which falls back to full sync with no cursor to save; a `none`
history result covers the 404 "cursor too old" case (and a listing error,
which the same handler sends to full sync). -/
def runCycle (env : CycleEnv) (stored : Option String) : CycleResult :=
  if env.workerEnabled = false then ⟨stored, [], false, 60⟩
  else if env.clientAvailable = false then
    finishFetch env stored none env.fullSync
  else
    match env.currentCursor with
    | none => finishFetch env stored none env.fullSync
    | some cur =>
      match stored with
      | none => finishFetch env stored (some cur) env.fullSync
      | some last =>
        if last = cur then ⟨stored, [], false, 60⟩
        else
          match env.history with
          | none => finishFetch env stored (some cur) env.fullSync
          | some records =>
            let changedIds := extractMessageIds records
            let emails := if 0 < changedIds.length then env.deltaEmails else []
            finishFetch env stored (some cur) (.emails emails)

/-! ## Helper lemmas about the job table operations -/

theorem sameTriple_update (j : AIJob) (jt a m : String) (now : Nat) :
    sameTriple (enqueueStamp now j) jt a m = sameTriple j jt a m := by
  simp [sameTriple, enqueueStamp]

theorem enqueue_any_triple (table : List AIJob) (jt a m : String) (now fid : Nat) :
    (enqueueAiJob table jt a m now fid).any (fun j => sameTriple j jt a m) = true := by
  unfold enqueueAiJob
  by_cases h : table.any (fun j => sameTriple j jt a m) = true
  · simp only [h, if_true]
    rw [List.any_eq_true] at h ⊢
    obtain ⟨j0, hj0, hs⟩ := h
    refine ⟨_, List.mem_map_of_mem _ hj0, ?_⟩
    simp only [hs, if_true]
    rw [sameTriple_update]
    exact hs
  · rw [Bool.not_eq_true] at h
    simp only [h, Bool.false_eq_true, if_false]
    rw [List.any_eq_true]
    exact ⟨_, List.mem_append_right _ (List.mem_singleton_self _), by simp [sameTriple]⟩

theorem enqueue_length (table : List AIJob) (jt a m : String) (now fid : Nat) :
    (enqueueAiJob table jt a m now fid).length =
      if table.any (fun j => sameTriple j jt a m) then table.length
      else table.length + 1 := by
  unfold enqueueAiJob
  split <;> simp

theorem enqueue_mem_triple_reset (table : List AIJob) (jt a m : String)
    (now fid : Nat) (j : AIJob) (hj : j ∈ enqueueAiJob table jt a m now fid)
    (hs : sameTriple j jt a m = true) :
    j.status = JobStatus.queued ∧ j.attempts = 0 ∧ j.runAfter = now := by
  unfold enqueueAiJob at hj
  by_cases h : table.any (fun j => sameTriple j jt a m) = true
  · simp only [h, if_true] at hj
    rw [List.mem_map] at hj
    obtain ⟨j0, hj0, rfl⟩ := hj
    by_cases h0 : sameTriple j0 jt a m = true
    · simp [h0, enqueueStamp]
    · rw [Bool.not_eq_true] at h0
      simp [h0] at hs
  · rw [Bool.not_eq_true] at h
    simp only [h, Bool.false_eq_true, if_false] at hj
    rw [List.mem_append] at hj
    rcases hj with hj | hj
    · rw [List.any_eq_false] at h
      exact absurd hs (by simpa using h j hj)
    · rw [List.mem_singleton] at hj
      subst hj
      exact ⟨rfl, rfl, rfl⟩

/-- **C2** (corrected): counterexample to the claim as stated.  A job in
status `running` with two recorded attempts; a second `enqueue` for the same
`(job_type, account_id, message_id)` triple is NOT a no-op: it resets the
in-flight job to `queued`, `attempts = 0`, `run_after = now`. -/
def cexRunningJob : AIJob :=
  ⟨1, "email_summarize_v1", "default", "msg1", .running, 2, 0, 0, 0,
   some "worker-1", some 0, none, none⟩

/-- C2 counterexample: with the table holding the `running` job
`cexRunningJob`, a second `enqueue_ai_job` of the same triple (at time 7)
resets its status to `queued`, its attempts to 0 and its `run_after` to 7 —
refuting "the second enqueue call is a no-op on a job that is already in
status running". -/
theorem C2_counterexample :
    cexRunningJob.status = JobStatus.running ∧ cexRunningJob.attempts = 2 ∧
    enqueueAiJob [cexRunningJob] "email_summarize_v1" "default" "msg1" 7 99 ≠
      [cexRunningJob] ∧
    (enqueueAiJob [cexRunningJob] "email_summarize_v1" "default" "msg1" 7 99).map
      (fun j => (j.status, j.attempts, j.runAfter)) = [(JobStatus.queued, 0, 7)] := by
  refine ⟨rfl, rfl, ?_, by decide⟩
  decide

/-- **C2** (amended): for every triple, calling `enqueue` twice never creates
a second job row — the second call finds the triple present and only
updates in place — but the second call is NOT a no-op on an in-flight job:
every row matching the triple after an enqueue (at time `now`) has been
reset to `status = queued`, `attempts = 0`, `run_after = now`, regardless of
its previous status. -/
theorem C2_enqueue_idempotent_but_resets (table : List AIJob) (jt a m : String)
    (n1 f1 n2 f2 : Nat) :
    (enqueueAiJob (enqueueAiJob table jt a m n1 f1) jt a m n2 f2).length =
      (enqueueAiJob table jt a m n1 f1).length ∧
    (∀ j ∈ enqueueAiJob table jt a m n2 f2, sameTriple j jt a m = true →
      j.status = JobStatus.queued ∧ j.attempts = 0 ∧ j.runAfter = n2) := by
  constructor
  · rw [enqueue_length, enqueue_any_triple, if_pos rfl]
  · intro j hj hs
    exact enqueue_mem_triple_reset table jt a m n2 f2 j hj hs

/-- C2 witness: the amended theorem evaluated on a concrete one-row table. -/
theorem C2_witness :
    (enqueueAiJob (enqueueAiJob [cexRunningJob] "email_summarize_v1" "default"
        "msg1" 7 99) "email_summarize_v1" "default" "msg1" 8 100).length =
      (enqueueAiJob [cexRunningJob] "email_summarize_v1" "default" "msg1" 7 99).length ∧
    (⟨1, "email_summarize_v1", "default", "msg1", .queued, 0, 8, 8, 8,
      some "worker-1", some 0, none, none⟩ : AIJob).status = JobStatus.queued := by
  have h := C2_enqueue_idempotent_but_resets [cexRunningJob]
    "email_summarize_v1" "default" "msg1" 7 99 8 100
  exact ⟨h.1, (h.2 ⟨1, "email_summarize_v1", "default", "msg1", .queued, 0, 8, 8, 8,
    some "worker-1", some 0, none, none⟩ (by decide) (by decide)).1⟩

/-! ## C3: `_mark_job_failed` backoff and dead-lettering -/

/-- One consecutive failure of the same job, as the worker performs it: the
`attempts` parameter passed to `_mark_job_failed` is the claimed row's
current value. -/
def failOnce (e : String) (j : AIJob) (t : Nat) : AIJob :=
  failRow j.attempts e t j

theorem failOnce_attempts (e : String) (j : AIJob) (t : Nat) :
    (failOnce e j t).attempts = j.attempts + 1 := by
  simp only [failOnce, failRow]
  split <;> rfl

theorem failOnce_status (e : String) (j : AIJob) (t : Nat) :
    (failOnce e j t).status =
      if AI_MAX_ATTEMPTS ≤ j.attempts + 1 then JobStatus.dead else JobStatus.queued := by
  simp only [failOnce, failRow]
  split <;> simp_all

theorem failOnce_runAfter (e : String) (j : AIJob) (t : Nat)
    (hn : ¬ AI_MAX_ATTEMPTS ≤ j.attempts + 1) :
    (failOnce e j t).runAfter = t + 2 ^ (j.attempts + 1) := by
  simp only [failOnce, failRow]
  rw [if_neg hn]

theorem foldFail_attempts (e : String) :
    ∀ (ts : List Nat) (j : AIJob), (ts.foldl (failOnce e) j).attempts = j.attempts + ts.length
  | [], j => by simp
  | t :: ts, j => by
    rw [List.foldl_cons, foldFail_attempts e ts, failOnce_attempts, List.length_cons]
    omega

/-- **C3** (confirmed): `fail` increments `attempts`; the job becomes `dead`
exactly when the incremented attempts reach `AI_MAX_ATTEMPTS` (default 5);
otherwise it returns to `queued` with the lock fields cleared and
`run_after = now + 2^attempts` minutes (with `attempts` the incremented
value), so over consecutive failures `run_after` strictly increases; and
starting from a fresh queued job, a sequence of consecutive failures makes
the status `dead` exactly when the number of failures reaches
`AI_MAX_ATTEMPTS` — never before and never after. -/
theorem C3_fail_backoff_and_dead_letter (j : AIJob) (e : String) (t t' : Nat)
    (ht : t ≤ t') :
    (failOnce e j t).attempts = j.attempts + 1 ∧
    ((failOnce e j t).status = JobStatus.dead ↔ AI_MAX_ATTEMPTS ≤ j.attempts + 1) ∧
    (j.attempts + 1 < AI_MAX_ATTEMPTS →
      (failOnce e j t).status = JobStatus.queued ∧
      (failOnce e j t).lockedBy = none ∧ (failOnce e j t).lockedAt = none ∧
      (failOnce e j t).runAfter = t + 2 ^ (j.attempts + 1)) ∧
    (j.attempts + 2 < AI_MAX_ATTEMPTS →
      (failOnce e j t).runAfter < (failOnce e (failOnce e j t) t').runAfter) ∧
    (∀ (ts : List Nat), j.attempts = 0 → j.status = JobStatus.queued →
      ((ts.foldl (failOnce e) j).status = JobStatus.dead ↔
        AI_MAX_ATTEMPTS ≤ ts.length)) := by
  refine ⟨failOnce_attempts e j t, ?_, ?_, ?_, ?_⟩
  · rw [failOnce_status]
    split <;> simp_all
  · intro hlt
    have hn : ¬ AI_MAX_ATTEMPTS ≤ j.attempts + 1 := by omega
    refine ⟨by rw [failOnce_status, if_neg hn], ?_, ?_, failOnce_runAfter e j t hn⟩ <;>
      · simp only [failOnce, failRow]
        rw [if_neg hn]
  · intro hlt
    have hn1 : ¬ AI_MAX_ATTEMPTS ≤ j.attempts + 1 := by omega
    have ha : (failOnce e j t).attempts = j.attempts + 1 := failOnce_attempts e j t
    have h1 : (failOnce e j t).runAfter = t + 2 ^ (j.attempts + 1) :=
      failOnce_runAfter e j t hn1
    have h2 := failOnce_runAfter e (failOnce e j t) t' (by rw [ha]; omega)
    rw [ha] at h2
    rw [h1, h2]
    have hp : 2 ^ (j.attempts + 1) < 2 ^ (j.attempts + 1 + 1) :=
      Nat.pow_lt_pow_succ (by omega)
    omega
  · intro ts h0 hq
    rcases List.eq_nil_or_concat ts with rfl | ⟨init, u, rfl⟩
    · simp [hq, AI_MAX_ATTEMPTS]
    · rw [List.concat_eq_append, List.foldl_append, List.foldl_cons, List.foldl_nil,
        failOnce_status, foldFail_attempts, h0, List.length_append]
      simp only [List.length_cons, List.length_nil]
      constructor
      · intro hd
        by_contra hc
        rw [if_neg (by omega)] at hd
        simp at hd
      · intro hle
        rw [if_pos (by omega)]

/-- A freshly enqueued job: `queued`, zero attempts. -/
def freshQueuedJob : AIJob :=
  ⟨7, "email_summarize_v1", "default", "msg3", .queued, 0, 0, 0, 0, none, none,
   none, none⟩

/-- C3 witness: the theorem instantiated on a fresh queued job at times
`t = 3 ≤ t' = 9`, with the dead-at-exactly-five consequence evaluated on a
five-failure run. -/
theorem C3_witness :
    (failOnce "MISTRAL_FAILED" freshQueuedJob 3).attempts = 1 ∧
    (([4, 5, 6, 7, 8] : List Nat).foldl (failOnce "MISTRAL_FAILED") freshQueuedJob).status
      = JobStatus.dead := by
  have h := C3_fail_backoff_and_dead_letter freshQueuedJob "MISTRAL_FAILED" 3 9
    (by omega)
  exact ⟨h.1, (h.2.2.2.2 [4, 5, 6, 7, 8] rfl rfl).2 (by decide)⟩

/-! ## C6: terminality of `dead`/`succeeded` in the job state machine -/

/-- A dead-lettered job (five exhausted attempts). -/
def cexDeadJob : AIJob :=
  ⟨2, "email_summarize_v1", "default", "msg2", .dead, 5, 0, 0, 0, none, none,
   some "MISTRAL_FAILED", some 0⟩

/-- C6 counterexample: `enqueue_ai_job` on the triple of a `dead` job moves
it back to `queued` with `attempts = 0` — so `dead` is NOT terminal under
the queue operations, refuting the claim as stated. -/
theorem C6_counterexample :
    cexDeadJob.status = JobStatus.dead ∧
    (enqueueAiJob [cexDeadJob] "email_summarize_v1" "default" "msg2" 3 99).map
      (fun j => (j.status, j.attempts)) = [(JobStatus.queued, 0)] := by
  exact ⟨rfl, by decide⟩

/-- **C6** (amended): `claim` (the spec-modelled `ai_claim_jobs` RPC) returns
only jobs that were `queued` and due, stamped `running` — so `claim` never
moves a `dead` or `succeeded` job, and every returned attempt passes through
`running`; rows of the updated table are either untouched or were
queued-and-due (given table-unique ids); `complete` changes only the row
with the given id; but `enqueue` resets an existing row of the same triple —
even a `dead` or `succeeded` one — back to `queued`, so `dead`/`succeeded`
are not terminal with respect to `enqueue`. -/
theorem C6_terminality (table : List AIJob) (jt w : String) (lim now fid : Nat)
    (a m : String) (hids : (table.map (fun j => j.id)).Nodup) :
    (∀ j ∈ (aiClaimJobs table jt lim w now).1, ∃ j0, j0 ∈ table ∧
      j0.status = JobStatus.queued ∧ j0.runAfter ≤ now ∧ j = claimStamp w now j0) ∧
    (∀ j ∈ (aiClaimJobs table jt lim w now).2, j ∈ table ∨ ∃ j0, j0 ∈ table ∧
      j0.status = JobStatus.queued ∧ j0.runAfter ≤ now ∧ j = claimStamp w now j0) ∧
    (∀ (jobId t : Nat), ∀ j ∈ markJobSucceeded table jobId t, j ∈ table ∨
      ∃ j0, j0 ∈ table ∧ j0.id = jobId ∧
        j = { j0 with status := JobStatus.succeeded, updatedAt := t }) ∧
    (∀ j ∈ table, sameTriple j jt a m = true →
      j.status = JobStatus.dead ∨ j.status = JobStatus.succeeded →
      ∃ j', j' ∈ enqueueAiJob table jt a m now fid ∧ j'.id = j.id ∧
        j'.status = JobStatus.queued) := by
  refine ⟨?_, ?_, ?_, ?_⟩
  · intro j hj
    unfold aiClaimJobs at hj
    simp only [List.mem_map] at hj
    obtain ⟨j0, hj0, rfl⟩ := hj
    have hj0' := List.take_subset _ _ hj0
    rw [List.mem_filter] at hj0'
    obtain ⟨hmem, helig⟩ := hj0'
    simp only [Bool.and_eq_true, decide_eq_true_eq] at helig
    exact ⟨j0, hmem, helig.1.2, helig.2, rfl⟩
  · intro j hj
    unfold aiClaimJobs at hj
    rw [List.mem_map] at hj
    obtain ⟨j0, hj0, rfl⟩ := hj
    by_cases hc : j0.id ∈ (((table.filter (fun j => j.jobType = jt &&
        j.status = JobStatus.queued && decide (j.runAfter ≤ now))).take lim).map
        (fun j => j.id))
    · right
      obtain ⟨jc, hjc, hideq⟩ := List.mem_map.mp hc
      have hjc' := List.take_subset _ _ hjc
      rw [List.mem_filter] at hjc'
      obtain ⟨hcmem, helig⟩ := hjc'
      have hjeq : jc = j0 := List.inj_on_of_nodup_map hids hcmem hj0 hideq
      subst hjeq
      simp only [Bool.and_eq_true, decide_eq_true_eq] at helig
      exact ⟨jc, hcmem, helig.1.2, helig.2, by rw [if_pos hc]⟩
    · left
      rw [if_neg hc]
      exact hj0
  · intro jobId t j hj
    unfold markJobSucceeded at hj
    simp only [List.mem_map] at hj
    obtain ⟨j0, hj0, rfl⟩ := hj
    by_cases hc : j0.id = jobId
    · right
      exact ⟨j0, hj0, hc, by rw [if_pos hc]⟩
    · left
      rw [if_neg hc]
      exact hj0
  · intro j hj hs _hterm
    unfold enqueueAiJob
    rw [if_pos (List.any_eq_true.mpr ⟨j, hj, hs⟩)]
    refine ⟨enqueueStamp now j, ?_, rfl, rfl⟩
    have := List.mem_map_of_mem (fun j0 =>
      if sameTriple j0 jt a m = true then enqueueStamp now j0 else j0) hj
    simpa [hs] using this

/-- C6 witness: the amended theorem applied to the one-row table holding the
dead job — `enqueue` on its triple yields a row with the same id back in
`queued`. -/
theorem C6_witness :
    ∃ j', j' ∈ enqueueAiJob [cexDeadJob] "email_summarize_v1" "default" "msg2" 3 99 ∧
      j'.id = cexDeadJob.id ∧ j'.status = JobStatus.queued := by
  have h := C6_terminality [cexDeadJob] "email_summarize_v1" "w1" 10 3 99
    "default" "msg2" (by decide)
  exact h.2.2.2 cexDeadJob (by decide) (by decide) (Or.inl rfl)

/-! ## C7: the `_call_mistral` retry loop -/

theorem mistralLoop_ok_some_eq (f : Nat → MOutcome) (fuel i : Nat) (j : RawSummary)
    (s : SummaryJson) (hf : f i = MOutcome.ok j) (hv : validateSummary j = some s) :
    mistralLoop f i (fuel + 1) = ⟨some s, i + 1, []⟩ := by
  conv_lhs => unfold mistralLoop
  simp only [hf, hv]

theorem mistralLoop_fatal_eq (f : Nat → MOutcome) (fuel i : Nat)
    (hf : f i = MOutcome.fatal) :
    mistralLoop f i (fuel + 1) = ⟨none, i + 1, []⟩ := by
  conv_lhs => unfold mistralLoop
  simp only [hf]

theorem mistralLoop_retryClass_eq (f : Nat → MOutcome) (fuel i : Nat)
    (hc : attemptRetryClass (f i) = true) (hi : i < RATE_LIMIT_RETRY_DELAYS.length) :
    mistralLoop f i (fuel + 1) =
      ⟨(mistralLoop f (i + 1) fuel).value, (mistralLoop f (i + 1) fuel).calls,
       RATE_LIMIT_RETRY_DELAYS.getD i 0 :: (mistralLoop f (i + 1) fuel).sleeps⟩ := by
  cases hf : f i with
  | rateLimit =>
    conv_lhs => unfold mistralLoop
    simp only [hf]
    rw [if_pos hi]
  | fatal =>
    rw [hf] at hc
    simp [attemptRetryClass] at hc
  | ok j =>
    rw [hf] at hc
    simp only [attemptRetryClass, Bool.and_eq_true, Option.isNone_iff_eq_none] at hc
    conv_lhs => unfold mistralLoop
    simp only [hf, hc.1]
    rw [if_pos ⟨hc.2, hi⟩]

theorem mistralLoop_giveup_eq (f : Nat → MOutcome) (fuel i : Nat)
    (hc : attemptRetryClass (f i) = true)
    (hi : ¬ i < RATE_LIMIT_RETRY_DELAYS.length) :
    mistralLoop f i (fuel + 1) = ⟨none, i + 1, []⟩ := by
  cases hf : f i with
  | rateLimit =>
    conv_lhs => unfold mistralLoop
    simp only [hf]
    rw [if_neg hi]
  | fatal =>
    rw [hf] at hc
    simp [attemptRetryClass] at hc
  | ok j =>
    rw [hf] at hc
    simp only [attemptRetryClass, Bool.and_eq_true, Option.isNone_iff_eq_none] at hc
    conv_lhs => unfold mistralLoop
    simp only [hf, hc.1]
    rw [if_neg (fun h => hi h.2)]

theorem mistralLoop_failnow_eq (f : Nat → MOutcome) (fuel i : Nat)
    (h : attemptFailsNoRetry (f i) = true) :
    mistralLoop f i (fuel + 1) = ⟨none, i + 1, []⟩ := by
  cases hf : f i with
  | rateLimit =>
    rw [hf] at h
    simp [attemptFailsNoRetry] at h
  | fatal =>
    conv_lhs => unfold mistralLoop
    simp only [hf]
  | ok j =>
    rw [hf] at h
    simp only [attemptFailsNoRetry, Bool.and_eq_true, Option.isNone_iff_eq_none,
      Bool.not_eq_true', Bool.not_eq_true] at h
    conv_lhs => unfold mistralLoop
    simp only [hf, h.1]
    rw [if_neg (fun hh => by rw [h.2] at hh; exact absurd hh.1 (by simp))]

/-- Each loop step either retries (a rate-limit-classified error with ladder
room) or terminates this attempt with `calls = i + 1` and no sleep. -/
theorem mistralLoop_step (f : Nat → MOutcome) (fuel i : Nat) :
    (attemptRetryClass (f i) = true ∧ i < RATE_LIMIT_RETRY_DELAYS.length ∧
      mistralLoop f i (fuel + 1) =
        ⟨(mistralLoop f (i + 1) fuel).value, (mistralLoop f (i + 1) fuel).calls,
         RATE_LIMIT_RETRY_DELAYS.getD i 0 :: (mistralLoop f (i + 1) fuel).sleeps⟩) ∨
    (∃ v, mistralLoop f i (fuel + 1) = ⟨v, i + 1, []⟩ ∧
      ¬(attemptRetryClass (f i) = true ∧ i < RATE_LIMIT_RETRY_DELAYS.length)) := by
  by_cases hr : attemptRetryClass (f i) = true ∧ i < RATE_LIMIT_RETRY_DELAYS.length
  · exact Or.inl ⟨hr.1, hr.2, mistralLoop_retryClass_eq f fuel i hr.1 hr.2⟩
  · right
    by_cases hc : attemptRetryClass (f i) = true
    · have hi : ¬ i < RATE_LIMIT_RETRY_DELAYS.length := fun hi => hr ⟨hc, hi⟩
      exact ⟨none, mistralLoop_giveup_eq f fuel i hc hi, hr⟩
    · cases hf : f i with
      | rateLimit =>
        rw [hf] at hc
        exact absurd rfl hc
      | fatal =>
        exact ⟨none, mistralLoop_failnow_eq f fuel i (by rw [hf]; rfl), hf ▸ hr⟩
      | ok j =>
        cases hv : validateSummary j with
        | some s => exact ⟨some s, mistralLoop_ok_some_eq f fuel i j s hf hv, hf ▸ hr⟩
        | none =>
          refine ⟨none, mistralLoop_failnow_eq f fuel i ?_, hf ▸ hr⟩
          rw [hf] at hc ⊢
          simp only [attemptRetryClass, Bool.and_eq_true, Option.isNone_iff_eq_none,
            not_and] at hc
          simp only [attemptFailsNoRetry, Bool.and_eq_true, Option.isNone_iff_eq_none,
            Bool.not_eq_true']
          exact ⟨hv, by simpa using fun h => (hc hv) h⟩

theorem mistralLoop_calls_ge (f : Nat → MOutcome) :
    ∀ (fuel i : Nat), i ≤ (mistralLoop f i fuel).calls
  | 0, i => Nat.le_refl i
  | fuel + 1, i => by
    rcases mistralLoop_step f fuel i with ⟨-, -, heq⟩ | ⟨v, heq, -⟩
    · rw [heq]
      have hr := mistralLoop_calls_ge f fuel (i + 1)
      dsimp only
      omega
    · rw [heq]
      dsimp only
      omega

theorem mistralLoop_calls_ge_succ (f : Nat → MOutcome) (fuel i : Nat) :
    i + 1 ≤ (mistralLoop f i (fuel + 1)).calls := by
  rcases mistralLoop_step f fuel i with ⟨-, -, heq⟩ | ⟨v, heq, -⟩
  · rw [heq]
    have hr := mistralLoop_calls_ge f fuel (i + 1)
    dsimp only
    omega
  · rw [heq]

theorem mistralLoop_calls_le (f : Nat → MOutcome) :
    ∀ (fuel i : Nat), (mistralLoop f i fuel).calls ≤ i + fuel
  | 0, i => Nat.le_refl i
  | fuel + 1, i => by
    rcases mistralLoop_step f fuel i with ⟨-, -, heq⟩ | ⟨v, heq, -⟩
    · rw [heq]
      have hr := mistralLoop_calls_le f fuel (i + 1)
      dsimp only
      omega
    · rw [heq]
      dsimp only
      omega

theorem mistralLoop_retry_only (f : Nat → MOutcome) :
    ∀ (fuel i k : Nat), i ≤ k → k + 1 < (mistralLoop f i fuel).calls →
      attemptRetryClass (f k) = true
  | 0, i, k => by
    intro hik hk
    exact absurd hk (by simp [mistralLoop]; omega)
  | fuel + 1, i, k => by
    intro hik hk
    rcases mistralLoop_step f fuel i with ⟨hc, -, heq⟩ | ⟨v, heq, -⟩
    · rw [heq] at hk
      dsimp only at hk
      rcases Nat.eq_or_lt_of_le hik with rfl | hlt
      · exact hc
      · exact mistralLoop_retry_only f fuel (i + 1) k hlt hk
    · rw [heq] at hk
      dsimp only at hk
      omega

theorem mistralLoop_sleeps (f : Nat → MOutcome) :
    ∀ (fuel i : Nat), i + fuel = RATE_LIMIT_RETRY_DELAYS.length + 1 →
      (mistralLoop f i fuel).sleeps =
        (RATE_LIMIT_RETRY_DELAYS.drop i).take ((mistralLoop f i fuel).calls - 1 - i)
  | 0, i => by
    intro hinv
    simp [mistralLoop]
  | fuel + 1, i => by
    intro hinv
    rcases mistralLoop_step f fuel i with ⟨-, hi, heq⟩ | ⟨v, heq, -⟩
    · have hfuel : 0 < fuel := by
        have : RATE_LIMIT_RETRY_DELAYS.length = 3 := rfl
        omega
      obtain ⟨fuel', rfl⟩ : ∃ fuel', fuel = fuel' + 1 := ⟨fuel - 1, by omega⟩
      rw [heq]
      dsimp only
      have hrec := mistralLoop_sleeps f (fuel' + 1) (i + 1) (by omega)
      have hge := mistralLoop_calls_ge_succ f fuel' (i + 1)
      rw [hrec, List.drop_eq_getElem_cons hi]
      have harith : (mistralLoop f (i + 1) (fuel' + 1)).calls - 1 - i =
          ((mistralLoop f (i + 1) (fuel' + 1)).calls - 1 - (i + 1)) + 1 := by omega
      rw [harith, List.take_succ_cons]
      congr 1
      simp [List.getD_eq_getElem?_getD, List.getElem?_eq_getElem hi]
    · rw [heq]
      dsimp only
      simp

theorem mistralLoop_exhaust (f : Nat → MOutcome) :
    ∀ (fuel i : Nat), i + fuel = RATE_LIMIT_RETRY_DELAYS.length + 1 →
      (∀ k, k < RATE_LIMIT_RETRY_DELAYS.length + 1 → attemptRetryClass (f k) = true) →
      (mistralLoop f i fuel).value = none ∧
        (mistralLoop f i fuel).calls = RATE_LIMIT_RETRY_DELAYS.length + 1
  | 0, i => by
    intro hinv hall
    exact ⟨rfl, by simp [mistralLoop]; omega⟩
  | fuel + 1, i => by
    intro hinv hall
    have hc := hall i (by omega)
    by_cases hi : i < RATE_LIMIT_RETRY_DELAYS.length
    · rw [mistralLoop_retryClass_eq f fuel i hc hi]
      exact mistralLoop_exhaust f fuel (i + 1) (by omega) hall
    · rw [mistralLoop_giveup_eq f fuel i hc hi]
      exact ⟨rfl, by dsimp only; omega⟩

theorem mistralLoop_fail_immediate (f : Nat → MOutcome) :
    ∀ (fuel i k : Nat), i + fuel = RATE_LIMIT_RETRY_DELAYS.length + 1 → i ≤ k →
      k < RATE_LIMIT_RETRY_DELAYS.length + 1 → attemptFailsNoRetry (f k) = true →
      (∀ n, i ≤ n → n < k → attemptRetryClass (f n) = true) →
      (mistralLoop f i fuel).value = none ∧ (mistralLoop f i fuel).calls = k + 1
  | 0, i, k => by
    intro hinv hik hk hfk _hrl
    omega
  | fuel + 1, i, k => by
    intro hinv hik hk hfk hrl
    rcases Nat.eq_or_lt_of_le hik with rfl | hlt
    · rw [mistralLoop_failnow_eq f fuel i hfk]
      exact ⟨rfl, rfl⟩
    · have hc := hrl i (Nat.le_refl i) hlt
      have hi : i < RATE_LIMIT_RETRY_DELAYS.length := by
        have : RATE_LIMIT_RETRY_DELAYS.length = 3 := rfl
        omega
      rw [mistralLoop_retryClass_eq f fuel i hc hi]
      exact mistralLoop_fail_immediate f fuel (i + 1) k (by omega) hlt hk hfk
        (fun n hn hnk => hrl n (by omega) hnk)

/-- A `generate_json` response missing two required keys but carrying a
`generated_at` key: the `ValueError` message
`Missing required keys. Got: dict_keys(['overview', 'generated_at'])`
contains "rate" once lowercased (gene**rate**d_at). -/
def cexRateyRaw : RawSummary := ⟨some "ok".data, none, none, ["generated_at"]⟩

/-- C7 counterexample: the response `cexRateyRaw` fails validation (a
non-rate-limit `ValueError`), yet because its rendered key list contains
"rate" the handler classifies it as a rate-limit: with every attempt
returning this response, the call retries through the whole ladder —
4 attempts and sleeps 10 s, 30 s, 60 s — instead of failing immediately,
refuting "every non-rate-limit error makes the invocation fail immediately
with no retry" (and "retries only on rate-limit errors"). -/
theorem C7_counterexample :
    validateSummary cexRateyRaw = none ∧
    (callMistral (fun _ => MOutcome.ok cexRateyRaw)).calls = 4 ∧
    (callMistral (fun _ => MOutcome.ok cexRateyRaw)).sleeps = [10, 30, 60] ∧
    (callMistral (fun _ => MOutcome.ok cexRateyRaw)).value = none := by
  exact ⟨rfl, by decide, by decide, by decide⟩

/-- **C7** (amended): `_call_mistral` makes at most
`len(RATE_LIMIT_RETRY_DELAYS) + 1 = 4` total attempts; every attempt after
the first happens only because the previous one was classified as a
rate-limit — a true rate-limit error OR a missing-required-keys
`ValueError` whose message (which embeds the response's key list) contains
"429"/"rate"; the sleeps performed are exactly the ladder prefix
`[10, 30, 60][:attempts-1]`; if every attempt is rate-limit-classified the
call gives up (returns failure) after exhausting the ladder, having slept
10 s, 30 s, 60 s; and an error that is not rate-limit-classified fails the
invocation immediately, with no further attempt. -/
theorem C7_rate_limit_retry_ladder (f : Nat → MOutcome) :
    (callMistral f).calls ≤ RATE_LIMIT_RETRY_DELAYS.length + 1 ∧
    (∀ k, k + 1 < (callMistral f).calls → attemptRetryClass (f k) = true) ∧
    (callMistral f).sleeps = RATE_LIMIT_RETRY_DELAYS.take ((callMistral f).calls - 1) ∧
    ((∀ k, k < RATE_LIMIT_RETRY_DELAYS.length + 1 → attemptRetryClass (f k) = true) →
      (callMistral f).value = none ∧
      (callMistral f).calls = RATE_LIMIT_RETRY_DELAYS.length + 1 ∧
      (callMistral f).sleeps = RATE_LIMIT_RETRY_DELAYS) ∧
    (∀ k, k < RATE_LIMIT_RETRY_DELAYS.length + 1 → attemptFailsNoRetry (f k) = true →
      (∀ n, n < k → attemptRetryClass (f n) = true) →
      (callMistral f).value = none ∧ (callMistral f).calls = k + 1) := by
  refine ⟨?_, ?_, ?_, ?_, ?_⟩
  · have := mistralLoop_calls_le f (RATE_LIMIT_RETRY_DELAYS.length + 1) 0
    simpa [callMistral] using this
  · intro k hk
    exact mistralLoop_retry_only f (RATE_LIMIT_RETRY_DELAYS.length + 1) 0 k
      (Nat.zero_le k) hk
  · have := mistralLoop_sleeps f (RATE_LIMIT_RETRY_DELAYS.length + 1) 0 rfl
    simpa [callMistral] using this
  · intro hall
    have h := mistralLoop_exhaust f (RATE_LIMIT_RETRY_DELAYS.length + 1) 0 rfl hall
    refine ⟨h.1, h.2, ?_⟩
    have hs := mistralLoop_sleeps f (RATE_LIMIT_RETRY_DELAYS.length + 1) 0 rfl
    rw [callMistral, hs, h.2]
    simp
  · intro k hk hfk hrl
    exact mistralLoop_fail_immediate f (RATE_LIMIT_RETRY_DELAYS.length + 1) 0 k rfl
      (Nat.zero_le k) hk hfk (fun n _ hnk => hrl n hnk)

/-- C7 witness: with every attempt a true rate-limit, the call gives up
after 4 attempts having slept the full 10 s, 30 s, 60 s ladder; and with a
fatal (non-rate-limit-classified) first attempt, the call fails after
exactly one attempt. -/
theorem C7_witness :
    (callMistral (fun _ => MOutcome.rateLimit)).value = none ∧
    (callMistral (fun _ => MOutcome.rateLimit)).calls = 4 ∧
    (callMistral (fun _ => MOutcome.rateLimit)).sleeps = [10, 30, 60] ∧
    (callMistral (fun _ => MOutcome.fatal)).calls = 1 := by
  have h := C7_rate_limit_retry_ladder (fun _ => MOutcome.rateLimit)
  have he := h.2.2.2.1 (fun k _ => rfl)
  have h2 := C7_rate_limit_retry_ladder (fun _ => MOutcome.fatal)
  have hf := h2.2.2.2.2 0 (by decide) rfl (fun n hn => absurd hn (Nat.not_lt_zero n))
  exact ⟨he.1, he.2.1.trans rfl, he.2.2.trans rfl, hf.2⟩

/-! ## Helper lemmas about the sync cycle -/

/-- The number of message upserts among a cycle's writes. -/
def countSaves (ws : List WriteOp) : Nat :=
  (ws.filter fun w => match w with | .saveEmail _ => true | _ => false).length

theorem ingest_count_saves : ∀ (es : List SyncEmail) (n : Nat),
    (ingest es n).2.1 = n + countSaves (ingest es n).1
  | [], n => by simp [ingest, countSaves]
  | e :: rest, n => by
    unfold ingest
    cases hm : e.messageId with
    | none => exact ingest_count_saves rest n
    | some mid =>
      by_cases hs : e.saveOk = true
      · rw [hs]
        simp only [if_true]
        have hr := ingest_count_saves rest (n + 1)
        by_cases hn : n + 1 ≤ 30 <;>
          simp [hn, countSaves, List.filter_append] at hr ⊢ <;> omega
      · rw [Bool.not_eq_true] at hs
        rw [hs]
        simp [countSaves]

theorem countSaves_append (a b : List WriteOp) :
    countSaves (a ++ b) = countSaves a + countSaves b := by
  simp [countSaves, List.filter_append]

theorem countSaves_setCursor (c : String) : countSaves [WriteOp.setCursor c] = 0 := rfl

theorem finishFetch_emit (env : CycleEnv) (stored : Option String)
    (cur : Option String) (fr : FetchResult) :
    (finishFetch env stored cur fr).emitted = true →
      0 < countSaves (finishFetch env stored cur fr).writes := by
  cases fr with
  | authError => intro h; simp [finishFetch] at h
  | emails es =>
    unfold finishFetch
    dsimp only
    set es' := if env.maxEmailsPerCycle < es.length then es.take env.maxEmailsPerCycle
      else es with hes
    split
    · intro h; cases h
    · cases cur with
      | none =>
        intro h
        dsimp only at h ⊢
        simp only [Bool.and_eq_true, decide_eq_true_eq] at h
        obtain ⟨h1, -⟩ := h
        have hcount := ingest_count_saves es' 0
        omega
      | some c =>
        dsimp only
        cases hcs : env.cursorSaveOk with
        | true =>
          rw [if_pos rfl]
          intro h
          dsimp only at h ⊢
          simp only [Bool.and_eq_true, decide_eq_true_eq] at h
          obtain ⟨h1, -⟩ := h
          have hcount := ingest_count_saves es' 0
          rw [countSaves_append, countSaves_setCursor]
          omega
        | false =>
          rw [if_neg (by simp)]
          intro h
          dsimp only at h ⊢
          simp only [Bool.and_eq_true, decide_eq_true_eq] at h
          obtain ⟨h1, -⟩ := h
          have hcount := ingest_count_saves es' 0
          omega

theorem runCycle_emit (env : CycleEnv) (stored : Option String) :
    (runCycle env stored).emitted = true →
      0 < countSaves (runCycle env stored).writes := by
  unfold runCycle
  repeat' split
  all_goals try dsimp only
  all_goals first
    | exact finishFetch_emit _ _ _ _
    | (intro h; cases h)

/-- **C5** (confirmed): when the stored cursor equals the provider's current
position, the cycle is a NO-OP: no store writes at all (no message upserts,
no job enqueues, no cursor write), no event emitted, normal 60-second sleep,
cursor unchanged; and in every cycle whatsoever, the `emails_updated` event
is emitted only when the count of newly written messages is positive. -/
theorem C5_noop_cycle_and_emit_guard (env : CycleEnv) (stored : Option String)
    (c : String) (hen : env.workerEnabled = true) (hcl : env.clientAvailable = true)
    (hcur : env.currentCursor = some c) (hstored : stored = some c) :
    runCycle env stored = ⟨stored, [], false, 60⟩ ∧
    (∀ (env' : CycleEnv) (stored' : Option String),
      (runCycle env' stored').emitted = true →
        0 < countSaves (runCycle env' stored').writes) := by
  refine ⟨?_, runCycle_emit⟩
  unfold runCycle
  rw [hen, hcl, hcur, hstored]
  simp only [Bool.true_eq_false, if_false]
  simp

/-- A concrete NO-OP environment: stored cursor equals current position. -/
def cEnvC5 : CycleEnv :=
  ⟨true, true, some "hist-7", none, [⟨some "mX", "s", "f", "d", "b", true⟩],
   .emails [], 50, true, true⟩

/-- C5 witness: the theorem applied to the concrete NO-OP environment. -/
theorem C5_witness :
    runCycle cEnvC5 (some "hist-7") =
      ⟨some "hist-7", [], false, 60⟩ := by
  have h := C5_noop_cycle_and_emit_guard cEnvC5 (some "hist-7") "hist-7" rfl rfl
    rfl rfl
  exact h.1

/-- **C8** (confirmed): whenever a cycle reaches a full sync whose result is
the revoked-authorization marker (`invalid_grant` from `run_engine`), the
loop enters the quiet 10-minute (600 s) backoff instead of the normal
60-second interval, performs no writes, emits nothing, leaves the cursor
unchanged, and continues (the marker is data, not an uncaught exception —
`runCycle` is total, so the loop never crashes). -/
theorem C8_auth_error_quiet_backoff (env : CycleEnv) (stored : Option String)
    (hen : env.workerEnabled = true) (hauth : env.fullSync = FetchResult.authError)
    (hpath : env.clientAvailable = false ∨ env.currentCursor = none ∨ stored = none ∨
      (∃ last cpos, stored = some last ∧ env.currentCursor = some cpos ∧
        last ≠ cpos ∧ env.history = none)) :
    runCycle env stored = ⟨stored, [], false, 600⟩ := by
  have hfin : ∀ (st cur : Option String), finishFetch env st cur env.fullSync =
      ⟨st, [], false, 600⟩ := by
    intro st cur
    rw [hauth]
    rfl
  unfold runCycle
  rw [hen]
  simp only [Bool.true_eq_false, if_false]
  by_cases hcl : env.clientAvailable = false
  · rw [if_pos hcl]
    exact hfin stored none
  · rw [if_neg hcl]
    cases hc2 : env.currentCursor with
    | none => exact hfin stored none
    | some cpos =>
      cases hs2 : stored with
      | none => exact hfin none (some cpos)
      | some last =>
        rcases hpath with h | h | h | ⟨last', cpos', hst, hcc', hne, hh⟩
        · exact absurd h hcl
        · rw [h] at hc2
          cases hc2
        · rw [h] at hs2
          cases hs2
        · rw [hs2] at hst
          injection hst with hlast
          rw [hc2] at hcc'
          injection hcc' with hcpos
          subst hlast
          subst hcpos
          dsimp only
          rw [if_neg hne, hh]
          exact hfin (some last) (some cpos)

/-- A cycle environment whose full sync reports revoked authorization. -/
def cEnvC8 : CycleEnv :=
  ⟨true, false, none, none, [], .authError, 50, true, true⟩

/-- C8 witness: the theorem applied to the concrete revoked-auth
environment — 600-second quiet backoff, nothing written. -/
theorem C8_witness :
    runCycle cEnvC8 (some "hist-3") = ⟨some "hist-3", [], false, 600⟩ := by
  exact C8_auth_error_quiet_backoff cEnvC8 (some "hist-3") rfl rfl (Or.inl rfl)

/-! ## C9: `smart_truncate` -/

theorem estimateTokens_le_quarter (text : List Char) :
    estimateTokens .english text ≤ text.length / 4 := by
  unfold estimateTokens
  split
  · exact Nat.zero_le _
  · exact Nat.le_refl _

theorem joinNl_mem (x : List Char) :
    ∀ (l : List (List Char)), x ∈ l → ∃ pre post, joinNl l = pre ++ x ++ post
  | [], h => absurd h (List.not_mem_nil x)
  | [y], h => by
    rw [List.mem_singleton] at h
    subst h
    exact ⟨[], [], by simp [joinNl]⟩
  | y :: z :: rest, h => by
    rw [List.mem_cons] at h
    rcases h with rfl | h
    · exact ⟨[], '\n' :: joinNl (z :: rest), by simp [joinNl]⟩
    · obtain ⟨pre, post, hj⟩ := joinNl_mem x (z :: rest) h
      refine ⟨y ++ '\n' :: pre, post, ?_⟩
      simp [joinNl, hj]

/-- General bound on `smart_truncate`: whenever the input estimates over the
target, the output estimates to at most `target + 3` (the hard-fallback
marker overhead) and carries a truncation marker. -/
theorem smartTruncate_estimate_bound (text : List Char) (target : Nat)
    (hover : target < estimateTokens .english text) :
    estimateTokens .english (smartTruncate .english text target).1 ≤ target + 3 ∧
    hasTruncationMarker (smartTruncate .english text target).1 := by
  unfold smartTruncate
  rw [if_neg (by omega)]
  dsimp only
  split <;> dsimp only
  · constructor
    · have hb := estimateTokens_le_quarter
        (text.take (targetCharsFor .english target) ++ HARD_MARKER)
      have hlen : (text.take (targetCharsFor .english target) ++ HARD_MARKER).length
          ≤ 4 * target + 14 := by
        rw [List.length_append, List.length_take]
        have hm : HARD_MARKER.length = 14 := rfl
        have ht : targetCharsFor TokenMode.english target = 4 * target := rfl
        omega
      omega
    · exact Or.inr ⟨text.take (targetCharsFor .english target), [], by simp⟩
  · constructor
    · omega
    · have hmem : SMART_MARKER ∈
          pySliceFirst ((splitNl text).length / 5) (splitNl text) ++ [SMART_MARKER] ++
            pySliceLast (2 * (splitNl text).length / 5) (splitNl text) :=
        List.mem_append_left _ (List.mem_append_right _ (List.mem_singleton_self _))
      obtain ⟨pre, post, hj⟩ := joinNl_mem SMART_MARKER _ hmem
      exact Or.inl ⟨pre, post, hj⟩

theorem strippedEmpty_append_left (a b : List Char)
    (h : strippedEmpty a = false) : strippedEmpty (a ++ b) = false := by
  simp only [strippedEmpty, List.all_append] at h ⊢
  rw [h]
  rfl

theorem strippedEmpty_replicate_a (n : Nat) :
    strippedEmpty (List.replicate (n + 1) 'a') = false := by
  rw [List.replicate_succ]
  simp only [strippedEmpty, List.all_cons]
  rw [show Char.isWhitespace 'a' = false from by decide]
  rfl

theorem estimateTokens_english_eq (text : List Char)
    (h : strippedEmpty text = false) :
    estimateTokens .english text = text.length / 4 := by
  unfold estimateTokens
  rw [h]
  cases text with
  | nil => simp [strippedEmpty] at h
  | cons c rest => simp [divideByCharsPerToken]

theorem splitNl_replicate_a :
    ∀ n, splitNl (List.replicate n 'a') = [List.replicate n 'a']
  | 0 => rfl
  | n + 1 => by
    rw [List.replicate_succ]
    simp only [splitNl, splitNl_replicate_a n]
    rw [if_neg (by decide), ← List.replicate_succ]

/-- A 15404-character single-line text: its English estimate is 3851, just
over the `SAFE_INPUT_TOKENS = 3850` ceiling, so it satisfies the claim's
antecedent at the exact target the worker passes to `smart_truncate`. -/
def bigSingleLine : List Char := List.replicate 15404 'a'

theorem estimateTokens_bigSingleLine :
    estimateTokens .english bigSingleLine = 3851 := by
  rw [show bigSingleLine = List.replicate (15403 + 1) 'a' from rfl,
    estimateTokens_english_eq _ (strippedEmpty_replicate_a 15403)]
  rw [List.length_replicate]

theorem estimateTokens_smartJoin_big :
    estimateTokens .english (SMART_MARKER ++ '\n' :: bigSingleLine) = 3860 := by
  rw [estimateTokens_english_eq _
    (strippedEmpty_append_left _ _ (by decide))]
  rw [List.length_append, List.length_cons,
    show SMART_MARKER.length = 36 from rfl,
    show bigSingleLine.length = 15404 from by
      unfold bigSingleLine
      rw [List.length_replicate]]

theorem smartTruncate_bigSingleLine :
    (smartTruncate .english bigSingleLine TokenLimits.SAFE_INPUT_TOKENS).1 =
      List.replicate 15400 'a' ++ HARD_MARKER := by
  have hsplit : splitNl bigSingleLine = [bigSingleLine] := splitNl_replicate_a 15404
  simp only [smartTruncate]
  rw [estimateTokens_bigSingleLine, if_neg (by decide), hsplit]
  simp only [List.length_cons, List.length_nil, pySliceFirst, pySliceLast]
  norm_num
  rw [show joinNl [SMART_MARKER, bigSingleLine] =
      SMART_MARKER ++ '\n' :: bigSingleLine from by simp [joinNl]]
  rw [estimateTokens_smartJoin_big, if_pos (by decide)]
  rw [show targetCharsFor .english TokenLimits.SAFE_INPUT_TOKENS = 15400 from rfl]
  rw [show bigSingleLine.take 15400 = List.replicate 15400 'a' from by
    unfold bigSingleLine
    rw [List.take_replicate]
    norm_num]

/-- C9 counterexample: the 15404-character single-line input estimates to
3851 tokens, over the 3850 safe-token ceiling, so the claim's antecedent
holds at the very target the worker passes; yet `smart_truncate` returns
text estimating to 3853 > 3850 tokens — the single line makes the
line-keeping phase keep everything (the Python slice `lines[-0:]` is the
whole list), and the hard fallback cuts to `4·3850` characters and THEN
appends the 14-character marker, landing at `target + 3` — refuting
"returns text whose estimated token count is ≤ the given target tokens". -/
theorem C9_counterexample :
    TokenLimits.SAFE_INPUT_TOKENS < estimateTokens .english bigSingleLine ∧
    estimateTokens .english
      (smartTruncate .english bigSingleLine TokenLimits.SAFE_INPUT_TOKENS).1 = 3853 ∧
    TokenLimits.SAFE_INPUT_TOKENS < 3853 := by
  refine ⟨by rw [estimateTokens_bigSingleLine]; decide, ?_, by decide⟩
  rw [smartTruncate_bigSingleLine, estimateTokens_english_eq _
    (strippedEmpty_append_left _ _ (strippedEmpty_replicate_a 15399))]
  rw [List.length_append, List.length_replicate,
    show HARD_MARKER.length = 14 from rfl]

/-- **C9** (amended): for every input text whose estimated token count
(default English profile) exceeds the safe-token ceiling
`SAFE_INPUT_TOKENS = 3850`, `smart_truncate` at that ceiling returns text
whose estimated token count is at most the target PLUS THREE — not ≤ the
target: the hard-truncation fallback first cuts to `4·target` characters
and then appends the 14-character `...[truncated]` marker, so the output
can estimate to `target + 3` tokens — and the output always contains an
explicit truncation marker; the keep ~20% first / ~40% last lines strategy
and the character-count fallback are otherwise as described. -/
theorem C9_truncation_bound (text : List Char)
    (hover : TokenLimits.SAFE_INPUT_TOKENS < estimateTokens .english text) :
    estimateTokens .english
      (smartTruncate .english text TokenLimits.SAFE_INPUT_TOKENS).1 ≤
        TokenLimits.SAFE_INPUT_TOKENS + 3 ∧
    hasTruncationMarker
      (smartTruncate .english text TokenLimits.SAFE_INPUT_TOKENS).1 :=
  smartTruncate_estimate_bound text TokenLimits.SAFE_INPUT_TOKENS hover

/-- C9 witness: the amended bound at the 15404-character single-line input,
whose estimate 3851 exceeds the 3850 ceiling: the output estimate is within
`3850 + 3` and a marker is present. -/
theorem C9_witness :
    TokenLimits.SAFE_INPUT_TOKENS < estimateTokens .english bigSingleLine ∧
    (estimateTokens .english
      (smartTruncate .english bigSingleLine TokenLimits.SAFE_INPUT_TOKENS).1 ≤
        TokenLimits.SAFE_INPUT_TOKENS + 3 ∧
    hasTruncationMarker
      (smartTruncate .english bigSingleLine TokenLimits.SAFE_INPUT_TOKENS).1) := by
  have hover : TokenLimits.SAFE_INPUT_TOKENS <
      estimateTokens .english bigSingleLine := by
    rw [estimateTokens_bigSingleLine]
    decide
  exact ⟨hover, C9_truncation_bound bigSingleLine hover⟩

/-! ## C10: whitespace-only bodies and the missing stats keys -/

/-- **C10** (confirmed): for every non-empty body whose whitespace-stripped
form is empty, `EmailPreprocessor.preprocess` returns the empty string with
a stats dict holding only `original_chars`, `final_chars` and
`reduction_pct` — `html_stripped`, `signature_removed` and
`reply_chain_removed` are absent; consequently
`_preprocess_and_prepare`, which (for non-empty input) unconditionally
reads `stats["html_stripped"]`, raises `KeyError("html_stripped")`, and
`process_job`'s outer handler marks such a job failed with
`WORKER_EXCEPTION` (zero model calls) rather than bypass-summarizing it. -/
theorem C10_whitespace_body_keyerror (env : WorkerEnv) (body subject : List Char)
    (hne : body ≠ []) (hws : strippedEmpty body = true) :
    preprocess env.steps (workerCfg env) body subject =
      ([], [("original_chars", .nat 0), ("final_chars", .nat 0),
            ("reduction_pct", .pct 0)]) ∧
    statsLookup (preprocess env.steps (workerCfg env) body subject).2
      "html_stripped" = none ∧
    statsLookup (preprocess env.steps (workerCfg env) body subject).2
      "signature_removed" = none ∧
    statsLookup (preprocess env.steps (workerCfg env) body subject).2
      "reply_chain_removed" = none ∧
    preprocessAndPrepare env body subject = Except.error "html_stripped" ∧
    (∀ (penv : ProcessEnv) (job : ClaimedJob) (row : EmailRow),
      penv.worker = env → penv.emailRow = some row → row.body = body →
      (processJob penv job).jobUpdate = JobUpdate.failed "WORKER_EXCEPTION" ∧
      (processJob penv job).mistralCalls = 0) := by
  have hbe : body.isEmpty = false := by
    cases body with
    | nil => exact absurd rfl hne
    | cons a l => rfl
  have hPre : ∀ (s : List Char), preprocess env.steps (workerCfg env) body s =
      ([], [("original_chars", .nat 0), ("final_chars", .nat 0),
            ("reduction_pct", .pct 0)]) := by
    intro s
    unfold preprocess
    rw [hbe, hws]
    rfl
  have hPAP : ∀ (s : List Char), preprocessAndPrepare env body s =
      Except.error "html_stripped" := by
    intro s
    unfold preprocessAndPrepare
    rw [hbe]
    dsimp only
    rw [hPre s]
    rfl
  refine ⟨hPre subject, by rw [hPre subject]; rfl, by rw [hPre subject]; rfl,
    by rw [hPre subject]; rfl, hPAP subject, ?_⟩
  intro penv job row hpw hper hbody
  unfold processJob
  rw [hper]
  dsimp only
  rw [hbody, hpw, hPAP row.subject]
  exact ⟨rfl, rfl⟩

/-- Concrete cleaning steps that change nothing (the environment functions
of `CleanSteps`/`WorkerEnv` instantiated trivially for witnesses). -/
def cWorkerEnv : WorkerEnv :=
  ⟨⟨id, fun t => (t, false), fun t => (t, false), id⟩, true, id, id⟩

def cRowC10 : EmailRow := ⟨"sub".data, "al".data, "d".data, " ".data⟩

def cProcEnvC10 : ProcessEnv := ⟨some cRowC10, [], fun _ => MOutcome.fatal, cWorkerEnv⟩

def cJobC10 : ClaimedJob := ⟨21, "acct1", "mid1", 0⟩

/-- C10 witness: the theorem applied to a single-space body — the prepare
step raises `KeyError("html_stripped")` and the job is failed with
`WORKER_EXCEPTION`. -/
theorem C10_witness :
    preprocessAndPrepare cWorkerEnv " ".data "sub".data =
      Except.error "html_stripped" ∧
    (processJob cProcEnvC10 cJobC10).jobUpdate = JobUpdate.failed "WORKER_EXCEPTION" := by
  have h := C10_whitespace_body_keyerror cWorkerEnv " ".data "sub".data
    (by decide) (by decide)
  exact ⟨h.2.2.2.2.1, (h.2.2.2.2.2 cProcEnvC10 cJobC10 cRowC10 rfl rfl rfl).1⟩

/-! ## C4: the cache gate -/

/-- **C4** (confirmed): for every job whose stored summary row (same
`account_id`, `gmail_message_id`, `PROMPT_VERSION`) has an `input_hash`
equal to the hash of the current preprocessed input, `process_job` marks
the job succeeded with zero model-provider calls and zero acquisitions of
the rate-limit semaphore — the cache is checked before `_call_mistral`
ever runs, so a cache hit never occupies a semaphore slot (the short
bypass branch likewise succeeds with no model call and no semaphore
use). -/
theorem C4_cache_hit_no_model_call (penv : ProcessEnv) (job : ClaimedJob)
    (row : EmailRow) (prepared : List Char) (stats : Stats)
    (hrow : penv.emailRow = some row)
    (hprep : preprocessAndPrepare penv.worker row.body row.subject =
      Except.ok (prepared, stats))
    (hcache : checkCache penv.summaries job.accountId job.gmailMessageId
      (penv.worker.sha256Hex (hashedInputOf row.subject row.sender prepared)) = true) :
    (processJob penv job).jobUpdate = JobUpdate.succeeded ∧
    (processJob penv job).mistralCalls = 0 ∧
    (processJob penv job).semaphoreAcquires = 0 := by
  unfold processJob
  rw [hrow]
  dsimp only
  rw [hprep]
  dsimp only
  by_cases hb : shouldBypassSummarization .english prepared 50 = true
  · rw [if_pos hb]
    exact ⟨rfl, rfl, rfl⟩
  · rw [if_neg hb, if_pos hcache]
    exact ⟨rfl, rfl, rfl⟩

def cRowC4 : EmailRow :=
  ⟨"sub".data, "al".data, "d".data,
   "hello there this is a moderately sized email body for the cache test".data⟩

def cSummariesC4 : List SummaryRecord :=
  [⟨"acct1", "mid1", "summ_v1_optimized", "open-mistral-nemo",
    hashedInputOf "sub".data "al".data
      "hello there this is a moderately sized email body for the cache test".data,
    ⟨[], [], "low".data⟩⟩]

def cProcEnvC4 : ProcessEnv :=
  ⟨some cRowC4, cSummariesC4, fun _ => MOutcome.fatal, cWorkerEnv⟩

def cJobC4 : ClaimedJob := ⟨11, "acct1", "mid1", 0⟩

/-- C4 witness: with a stored summary whose hash matches the current
preprocessed input, the concrete job succeeds with zero model calls and
zero semaphore acquisitions. -/
theorem C4_witness :
    (processJob cProcEnvC4 cJobC4).jobUpdate = JobUpdate.succeeded ∧
    (processJob cProcEnvC4 cJobC4).mistralCalls = 0 ∧
    (processJob cProcEnvC4 cJobC4).semaphoreAcquires = 0 := by
  exact C4_cache_hit_no_model_call cProcEnvC4 cJobC4 cRowC4
    "hello there this is a moderately sized email body for the cache test".data
    [("preprocessing_reduction_pct", StatVal.pct 0),
     ("html_stripped", StatVal.bool false),
     ("signature_removed", StatVal.bool false),
     ("token_count_estimated", StatVal.nat 17),
     ("within_limits", StatVal.bool true),
     ("truncated", StatVal.bool false)]
    rfl rfl (by decide)

end EmailAssistant
